import Mathlib

/-!
Verification development for the gamefaqs-server repository.

The TypeScript sources are shallowly embedded: each service method that the
claims mention is translated into a Lean function over explicit state.
JavaScript numbers are modelled by exact arithmetic: integer quantities by
Nat or Int, real-valued quantities by the rationals, and Math.floor of an
exact fraction p / q by the floored integer division Int.fdiv p q.
External effects (the HTTP stream, the 7z child process, the SQLite engine)
enter as explicit oracle inputs describing the events they deliver.
-/

/-! ## Game model (src/models/Game.ts) -/

/-- The status column of the games table: one of the three enumerated tags. -/
inductive GameStatus
  | not_started
  | in_progress
  | completed
deriving DecidableEq, Repr

namespace GameModel

/-- Embedding of GameModel.updateCompletionPercentage (src/models/Game.ts lines
104-118): clamps the incoming percentage with Math.max(0, Math.min(100, p)) and
derives the status by the 0 / 100 / strictly-between convention.  It returns
the pair (completion_percentage, status) written to the games row. -/
def updateCompletionPercentage (percentage : ℚ) : ℚ × GameStatus :=
  let clampedPercentage := max 0 (min 100 percentage)
  let status : GameStatus :=
    if clampedPercentage = 0 then .not_started
    else if clampedPercentage = 100 then .completed
    else .in_progress
  (clampedPercentage, status)

end GameModel

/-! ## Archive downloader (ArchiveDownloadService.downloadArchive) -/

/-- How the download stream run ends: the write stream finishes, the write
stream errors, or the response stream errors mid-transfer. -/
inductive StreamOutcome
  | finished
  | writeError (msg : String)
  | streamError (msg : String)
deriving DecidableEq, Repr

/-- Result of one downloadArchive call: the settled promise, and the file at
the destination path afterwards (none, or its size in bytes). -/
structure DownloadOutcome where
  result : Except String Unit
  fileAtDest : Option Nat
deriving Repr

namespace ArchiveDownloadService

/-- Embedding of ArchiveDownloadService.downloadArchive promise wiring
(part_009 lines 70-95).  The chunks are the byte counts streamed to the write
stream before the outcome event.  On finish the promise resolves with the full
file at the destination; on either error event the partial file is removed
with fs.unlink and the promise rejects. -/
def downloadArchive (chunks : List Nat) (outcome : StreamOutcome) : DownloadOutcome :=
  match outcome with
  | .finished => ⟨.ok (), some (chunks.foldl (· + ·) 0)⟩
  | .writeError msg => ⟨.error msg, none⟩
  | .streamError msg => ⟨.error msg, none⟩

end ArchiveDownloadService

/-! ## Guide importer (GuideImporter in src/services, part of ArchiveExtractor.ts
concatenation)

The filesystem below the scanned directory is modelled as the list of guide
files found by scanDirectory, in scan order.  Each file carries the one bit
the import pipeline branches on: whether GuideParser.parseGuide plus the
GuideModel.create insert succeeds for it (parseOk) or throws (a malformed
file).  The SQLite transaction wrapper is modelled by a per-batch oracle
txOk: when it is false the batch transaction itself throws at commit
(for example disk full) and the catch block falls back to row-at-a-time
inserts, as in lines 330-346 of the source. -/

/-- One guide file on disk, identified by its path, with the outcome of
parsing plus inserting it. -/
structure GFile where
  path : String
  parseOk : Bool
deriving DecidableEq, Repr

/-- Running totals accumulated by importFromDirectory. -/
structure ImportStats where
  imported : Nat
  skipped : Nat
  errors : Nat
deriving DecidableEq, Repr

namespace GuideImporter

/-- The BATCH_SIZE constant of the importer. -/
def BATCH_SIZE : Nat := 100

/-- The loop body run inside Database.transaction for one batch (lines
311-322): each file is parsed and inserted under a per-file try/catch, a
success bumps imported and records the path in importedPaths, a failure bumps
errors.  Returns the stats and the importedPaths list. -/
def runBatchTx : List GFile → ImportStats → ImportStats × List String
  | [], s => (s, [])
  | f :: rest, s =>
    if f.parseOk then
      let (s1, paths) := runBatchTx rest { s with imported := s.imported + 1 }
      (s1, f.path :: paths)
    else
      runBatchTx rest { s with errors := s.errors + 1 }

/-- One batch of the import loop (lines 309-346).  If the transaction commits
(txOk), the files whose paths were recorded in importedPaths are unlinked and
the rest of the batch stays on disk.  If the transaction throws, its inserts
roll back but the stats mutations made inside the closure survive, and the
fallback loop re-runs every file of the batch one at a time, unlinking each
file right after a successful insert.  Returns the stats and the batch files
still on disk. -/
def runBatch (txOk : Bool) (batch : List GFile) (s : ImportStats) :
    ImportStats × List GFile :=
  let (s1, importedPaths) := runBatchTx batch s
  if txOk then
    (s1, batch.filter (fun f => !importedPaths.contains f.path))
  else
    let (s2, _) := runBatchTx batch s1
    (s2, batch.filter (fun f => !f.parseOk))

/-- The batched loop of importFromDirectory (lines 299-354): slices the file
list into batches of BATCH_SIZE, runs each batch, and concatenates what is
left on disk.  The batch index feeds the transaction oracle. -/
def importGo (txOk : Nat → Bool) : List GFile → Nat → ImportStats → ImportStats × List GFile
  | [], _, s => (s, [])
  | f :: rest, bi, s =>
    let batch := f :: rest.take (BATCH_SIZE - 1)
    let (s1, rem1) := runBatch (txOk bi) batch s
    let (s2, rem2) := importGo txOk (rest.drop (BATCH_SIZE - 1)) (bi + 1) s1
    (s2, rem1 ++ rem2)
termination_by l => l.length
decreasing_by
  simp only [List.length_drop, List.length_cons]
  omega

/-- Observable outcome of one importFromDirectory call: the settled promise,
the isImporting flag of the importer afterwards, and the guide files still on
disk. -/
structure ImportCall where
  result : Except String ImportStats
  isImporting : Bool
  fsFiles : List GFile
deriving Repr

/-- Embedding of GuideImporter.importFromDirectory (lines 265-369).  The
isImporting argument is the flag of the importer when the call starts; a call
under a running import throws before touching anything, and that early throw
happens before the try block, so the flag of the running import is left set.
Otherwise the flag is set, the run happens inside try/finally, and the finally
clause clears the flag on both the normal and the throwing path.  cbThrows
models a progress callback that throws on the first notification, the one
exception source not caught inside the loop. -/
def importFromDirectory (isImporting : Bool) (files : List GFile)
    (txOk : Nat → Bool) (cbThrows : Bool) : ImportCall :=
  if isImporting then
    ⟨.error "Import already in progress", true, files⟩
  else if cbThrows then
    ⟨.error "listener threw", false, files⟩
  else
    let (s, rem) := importGo txOk files 0 ⟨0, 0, 0⟩
    ⟨.ok s, false, rem⟩

/-- True exactly when a call was rejected by the re-entrancy guard, that is,
its promise rejected with the Import already in progress error. -/
def guardRejected (c : ImportCall) : Bool :=
  match c.result with
  | .error m => m == "Import already in progress"
  | .ok _ => false

end GuideImporter

/-! ## Archive extractor (src/services/ArchiveExtractor.ts)

Stage 1 (extractZipArchive) is abstracted to its observable interface: either
the outer container opens and yields the ordered list of inner 7z archives, or
opening or reading it fails and the stage-1 promise rejects (outerOk false).
Each inner archive carries the events its extraction delivers: the progress
percentages reported by the 7z stream, whether extractFull succeeds, and
whether the fs.unlinkSync call that follows succeeds (the source wraps it in
try/catch and only warns on failure). -/

/-- The status field of the extractor progress record. -/
inductive ExtractStatus
  | idle
  | extracting
  | complete
  | error
deriving DecidableEq, Repr

/-- The ExtractionProgress record passed to the progress callback.  The
message strings of the source are elided; the error field keeps the last
recorded error, as in the source where updateProgress merges partial
updates. -/
structure ExtractionProgress where
  totalArchives : Nat
  currentArchive : Nat
  currentArchiveName : String
  currentArchiveProgress : Int
  status : ExtractStatus
  error : Option String
deriving DecidableEq, Repr

/-- One inner 7z archive discovered by stage 1, with the behaviour of the
external tools on it. -/
structure InnerArchive where
  name : String
  percentEvents : List Int
  extractOk : Bool
  unlinkOk : Bool
deriving DecidableEq, Repr

namespace ArchiveExtractor

/-- The initial progress value of the extractor singleton. -/
def initialProgress : ExtractionProgress :=
  ⟨0, 0, "", 0, .idle, none⟩

/-- Callback events produced by the 7z progress stream while one inner
archive extracts (each updates currentArchiveProgress and notifies), together
with the progress state afterwards. -/
def percentFold (st : ExtractionProgress) : List Int → List ExtractionProgress × ExtractionProgress
  | [] => ([], st)
  | p :: rest =>
    let st1 := { st with currentArchiveProgress := p }
    let (evs, stF) := percentFold st1 rest
    (st1 :: evs, stF)

/-- Accumulator for the stage-2 loop: callback events so far, current
progress state, errors recorded through updateProgress, inner-archive files
still on disk, and the archives attempted so far in order. -/
structure Stage2Acc where
  events : List ExtractionProgress
  st : ExtractionProgress
  recordedErrors : List String
  remaining : List String
  attempted : List String
deriving Repr

/-- One iteration of the stage-2 loop (extractArchive lines 51-79): publish
the per-archive start update, stream the 7z progress events, record a
non-fatal error update if extractFull rejected, then attempt to delete the
inner-archive file regardless of that outcome, keeping it on disk only when
the deletion itself fails. -/
def stage2Step (acc : Stage2Acc) (a : InnerArchive) : Stage2Acc :=
  let stA := { acc.st with
    currentArchive := acc.st.currentArchive + 1,
    currentArchiveName := a.name,
    currentArchiveProgress := 0 }
  let pevs := (percentFold stA a.percentEvents).1
  let stB := (percentFold stA a.percentEvents).2
  if a.extractOk then
    { events := acc.events ++ stA :: pevs,
      st := stB,
      recordedErrors := acc.recordedErrors,
      remaining := if a.unlinkOk then acc.remaining else acc.remaining ++ [a.name],
      attempted := acc.attempted ++ [a.name] }
  else
    { events := acc.events ++ stA :: pevs ++
        [{ stB with error := some ("Failed to extract " ++ a.name) }],
      st := { stB with error := some ("Failed to extract " ++ a.name) },
      recordedErrors := acc.recordedErrors ++ ["Failed to extract " ++ a.name],
      remaining := if a.unlinkOk then acc.remaining else acc.remaining ++ [a.name],
      attempted := acc.attempted ++ [a.name] }

/-- The stage-2 loop starts from the two events published before it: the
initial status update to extracting, and the update that announces the
archive count with currentArchive still 0 (extractArchive lines 28 and
44-47). -/
def stage2Start (archives : List InnerArchive) : Stage2Acc :=
  let st0 := { initialProgress with status := ExtractStatus.extracting }
  let st1 := { st0 with totalArchives := archives.length, currentArchive := 0 }
  ⟨[st0, st1], st1, [], [], []⟩

/-- Observable outcome of one extractArchive call: whether its promise
resolved, the callback events in order, the errors recorded as non-fatal, the
inner-archive files still on disk afterwards, the archives attempted, and the
final status field. -/
structure ExtractOutcome where
  ok : Bool
  events : List ExtractionProgress
  recordedErrors : List String
  remaining : List String
  attempted : List String
  finalStatus : ExtractStatus
deriving Repr

/-- Embedding of ArchiveExtractor.extractArchive (lines 22-94).  A stage-1
failure rejects the whole extraction after publishing an error update; on a
stage-1 success every inner archive is processed by the stage-2 loop and the
run always completes. -/
def extractArchive (outerOk : Bool) (archives : List InnerArchive) : ExtractOutcome :=
  if outerOk then
    let acc := archives.foldl stage2Step (stage2Start archives)
    ⟨true, acc.events ++ [{ acc.st with status := ExtractStatus.complete }],
     acc.recordedErrors, acc.remaining, acc.attempted, .complete⟩
  else
    let st0 := { initialProgress with status := ExtractStatus.extracting }
    let stErr := { st0 with status := ExtractStatus.error, error := some "outer container open failed" }
    ⟨false, [st0, stErr], [], [], [], .error⟩

end ArchiveExtractor

/-! ## Initialization orchestrator (src/services/InitService.ts)

The published status snapshots of one initialize() run are modelled as the
list of InitStatus values handed to notifyListeners, in order.  Message
strings are elided.  The stage percentages reproduce the arithmetic of the
three progress callbacks in initialize() exactly, with Math.floor of an exact
fraction p / q rendered as Int.fdiv p q. -/

/-- The stage field of the init status. -/
inductive Stage
  | idle
  | downloading
  | extracting
  | importing
  | complete
  | error
deriving DecidableEq, Repr

/-- One status snapshot published to the listeners (message elided). -/
structure InitStatus where
  stage : Stage
  progress : Int
  guideCount : Nat
  gameCount : Nat
deriving DecidableEq, Repr

/-- One DownloadProgress callback payload of the downloader. -/
structure DownloadProgress where
  downloaded : Nat
  total : Nat
deriving DecidableEq, Repr

/-- One ImportProgress callback payload of the importer (file name and status
elided). -/
structure ImportProgress where
  total : Nat
  current : Nat
deriving DecidableEq, Repr

/-- The operations the orchestrator can invoke. -/
inductive PipelineOp
  | download
  | extract
  | importDir
deriving DecidableEq, Repr

namespace InitService

/-- The download callback of initialize() (lines 63-74): percentage is
downloaded / total * 100 when the total is known, else 0, and the published
progress is Math.floor(percentage * 0.3). -/
def downloadPercentage (p : DownloadProgress) : Int :=
  if p.total > 0 then Int.fdiv ((p.downloaded : Int) * 30) (p.total : Int) else 0

/-- The extraction callback of initialize() (lines 85-93): currentProgress is
(currentArchive - 1) / totalArchives + currentArchiveProgress / 100 /
totalArchives when totalArchives is positive, else 0, and the published
progress is 30 + Math.floor(currentProgress * 30). -/
def extractPercentage (p : ExtractionProgress) : Int :=
  if p.totalArchives > 0 then
    30 + Int.fdiv ((((p.currentArchive : Int) - 1) * 100 + p.currentArchiveProgress) * 30)
      ((100 : Int) * (p.totalArchives : Int))
  else 30

/-- The import callback of initialize() (lines 111-116): 60 +
Math.floor(current / max(total, 1) * 40). -/
def importPercentage (p : ImportProgress) : Int :=
  60 + Int.fdiv ((p.current : Int) * 40) (max (p.total : Int) 1)

/-- The ImportProgress payloads importFromDirectory delivers for a directory
of n guide files: the scanning notification, the importing start, one
notification at the head of each batch, and the final complete
notification. -/
def importerEvents (n : Nat) : List ImportProgress :=
  ⟨0, 0⟩ :: ⟨n, 0⟩ ::
    ((List.range ((n + GuideImporter.BATCH_SIZE - 1) / GuideImporter.BATCH_SIZE)).map
      (fun b => (⟨n, b * GuideImporter.BATCH_SIZE⟩ : ImportProgress))) ++ [⟨n, n⟩]

/-- Environment of one initialize() run: the store counts found at the start,
the events and outcomes the three stages deliver, and the store counts read
back at the end. -/
structure PipelineEnv where
  guideCount : Nat
  gameCount : Nat
  downloadEvents : List DownloadProgress
  downloadOk : Bool
  outerOk : Bool
  archives : List InnerArchive
  importFileCount : Nat
  finalGuideCount : Nat
  finalGameCount : Nat
deriving Repr

/-- The status snapshots published by one initialize() run (lines 25-165), in
order.  A non-empty store short-circuits to a single complete snapshot.
Otherwise each stage publishes its banner update, then the mapped callback
events; any stage failure is caught at line 142 and publishes the error
snapshot with progress reset to 0. -/
def initTrace (env : PipelineEnv) : List InitStatus :=
  if env.guideCount > 0 then
    [⟨.complete, 100, env.guideCount, env.gameCount⟩]
  else
    let dl := env.downloadEvents.map fun p =>
      (⟨.downloading, downloadPercentage p, 0, 0⟩ : InitStatus)
    let base := ⟨.downloading, 0, 0, 0⟩ :: dl
    if env.downloadOk then
      let ex := ArchiveExtractor.extractArchive env.outerOk env.archives
      let exEvents := ex.events.map fun p =>
        (⟨.extracting, extractPercentage p, 0, 0⟩ : InitStatus)
      let base2 := base ++ ⟨.extracting, 30, 0, 0⟩ :: exEvents
      if ex.ok then
        let imEvents := (importerEvents env.importFileCount).map fun p =>
          (⟨.importing, importPercentage p, 0, 0⟩ : InitStatus)
        base2 ++ ⟨.importing, 60, 0, 0⟩ :: imEvents ++
          [⟨.complete, 100, env.finalGuideCount, env.finalGameCount⟩]
      else
        base2 ++ [⟨.error, 0, 0, 0⟩]
    else
      base ++ [⟨.error, 0, 0, 0⟩]

/-- The stage operations initialize() invokes for a given environment: none
when the store is non-empty, otherwise the stages in order up to the first
failure. -/
def initOps (env : PipelineEnv) : List PipelineOp :=
  if env.guideCount > 0 then []
  else if env.downloadOk then
    if (ArchiveExtractor.extractArchive env.outerOk env.archives).ok then
      [.download, .extract, .importDir]
    else
      [.download, .extract]
  else
    [.download]

/-- Decides whether consecutive snapshots of a trace have non-decreasing
progress. -/
def progressMonotone : List InitStatus → Bool
  | [] => true
  | [_] => true
  | a :: b :: rest => decide (a.progress ≤ b.progress) && progressMonotone (b :: rest)

end InitService

/-! ## Guide rows, split full-text search, and its triggers
(src/models/Guide.ts and src/database/schema.ts)

A guides table is a list of rows in table order; the two FTS5 tables are
lists of entries.  The FTS5 match machinery is abstracted by a score oracle
per index: for a fixed query it assigns each index entry an optional
relevance rank (none when the entry does not match), and the SQL
ORDER BY rank is realised by sorting the matching rows by rank. -/

/-- One row of the guides table (columns the claims mention; metadata is the
nullable JSON text column). -/
structure GuideRow where
  id : String
  title : String
  content : String
  metadata : Option String
deriving DecidableEq, Repr

/-- One row of the guides_fts_meta table. -/
structure MetaEntry where
  guide_id : String
  title : String
  tags : String
deriving DecidableEq, Repr

/-- One row of the guides_fts_content table. -/
structure ContentEntry where
  guide_id : String
  content : String
deriving DecidableEq, Repr

/-- One row of an FTS query result: guide_id plus rank. -/
structure FTSRow where
  guide_id : String
  rank : ℚ
deriving DecidableEq, Repr

namespace GuideModel

/-- The ORDER BY rank comparison (ascending, best bm25 rank first). -/
def byRank (a b : FTSRow) : Prop := a.rank ≤ b.rank

instance : DecidableRel byRank :=
  fun a b => inferInstanceAs (Decidable (a.rank ≤ b.rank))

instance : IsTotal FTSRow byRank :=
  ⟨fun a b => le_total a.rank b.rank⟩

instance : IsTrans FTSRow byRank :=
  ⟨fun _ _ _ h1 h2 => le_trans h1 h2⟩

/-- SELECT guide_id, rank FROM idx WHERE idx MATCH query ORDER BY rank
LIMIT limit, with the MATCH and bm25 machinery abstracted by the score
oracle. -/
def queryIndex {α : Type} (idx : List α) (gid : α → String)
    (score : α → Option ℚ) (limit : Nat) : List FTSRow :=
  (List.insertionSort byRank
    (idx.filterMap (fun e => (score e).map (fun r => ⟨gid e, r⟩)))).take limit

/-- The fetchGuides helper of GuideModel.search (lines 130-137): SELECT *
FROM guides WHERE id IN (...), which carries no ORDER BY, so rows come back
in table order, not in the order of the id list. -/
def fetchGuides (db : List GuideRow) (ids : List String) : List GuideRow :=
  if ids.isEmpty then [] else db.filter (fun g => ids.contains g.id)

/-- The two result lists of GuideModel.search. -/
structure SearchResults where
  guides : List GuideRow
  content : List GuideRow
deriving DecidableEq, Repr

/-- Embedding of GuideModel.search (src/models/Guide.ts lines 116-150): query
both indexes independently, drop from the content matches every id already
matched on metadata, and fetch each id list through fetchGuides. -/
def search (db : List GuideRow) (metaIdx : List MetaEntry)
    (contentIdx : List ContentEntry) (mScore : MetaEntry → Option ℚ)
    (cScore : ContentEntry → Option ℚ) (limit : Nat) : SearchResults :=
  let metaResults := queryIndex metaIdx (·.guide_id) mScore limit
  let contentResults := queryIndex contentIdx (·.guide_id) cScore limit
  let metaIds := metaResults.map FTSRow.guide_id
  let contentOnlyIds :=
    (contentResults.map FTSRow.guide_id).filter (fun i => !metaIds.contains i)
  ⟨fetchGuides db metaIds, fetchGuides db contentOnlyIds⟩

end GuideModel

/-- The SQL != comparison on the nullable metadata column: three-valued, only
definitely true when both operands are non-NULL and differ; a NULL operand
makes it NULL, which a trigger WHEN clause does not treat as true. -/
def sqlTextNe : Option String → Option String → Bool
  | some a, some b => a != b
  | _, _ => false

/-- COALESCE(json_extract(metadata, tags path), the empty string): the tagsOf
oracle stands for the json_extract of the tags field from the metadata JSON
text. -/
def tagsString (tagsOf : String → Option String) : Option String → String
  | none => ""
  | some m => (tagsOf m).getD ""

/-- The guides table plus its two FTS index tables. -/
structure TriggerDB where
  guides : List GuideRow
  guides_fts_meta : List MetaEntry
  guides_fts_content : List ContentEntry
deriving DecidableEq, Repr

namespace FTSSchema

/-- INSERT INTO guides plus the two AFTER INSERT triggers
(schema.ts lines 136-154): one new entry in each index. -/
def insertGuide (tagsOf : String → Option String) (db : TriggerDB)
    (g : GuideRow) : TriggerDB :=
  ⟨db.guides ++ [g],
   db.guides_fts_meta ++ [⟨g.id, g.title, tagsString tagsOf g.metadata⟩],
   db.guides_fts_content ++ [⟨g.id, g.content⟩]⟩

/-- UPDATE guides SET ... WHERE id = new.id plus the two AFTER UPDATE
triggers (schema.ts lines 156-176).  The meta trigger fires WHEN old.title
!= new.title OR old.metadata != new.metadata, with SQL null semantics on the
metadata comparison; the content trigger fires WHEN old.content !=
new.content (content is NOT NULL). -/
def updateGuide (tagsOf : String → Option String) (db : TriggerDB)
    (new : GuideRow) : TriggerDB :=
  match db.guides.find? (fun g => g.id == new.id) with
  | none => db
  | some old =>
    { guides := db.guides.map (fun g => if g.id == new.id then new else g),
      guides_fts_meta :=
        if (old.title != new.title) || sqlTextNe old.metadata new.metadata then
          db.guides_fts_meta.map (fun e =>
            if e.guide_id == new.id then
              ⟨new.id, new.title, tagsString tagsOf new.metadata⟩
            else e)
        else db.guides_fts_meta,
      guides_fts_content :=
        if old.content != new.content then
          db.guides_fts_content.map (fun e =>
            if e.guide_id == new.id then ⟨new.id, new.content⟩ else e)
        else db.guides_fts_content }

/-- DELETE FROM guides WHERE id = gid plus the two AFTER DELETE triggers
(schema.ts lines 178-191): the triggers fire once per deleted row and remove
the entries of that guide from both indexes. -/
def deleteGuide (db : TriggerDB) (gid : String) : TriggerDB :=
  if db.guides.any (fun g => g.id == gid) then
    ⟨db.guides.filter (fun g => g.id != gid),
     db.guides_fts_meta.filter (fun e => e.guide_id != gid),
     db.guides_fts_content.filter (fun e => e.guide_id != gid)⟩
  else db

end FTSSchema

/-! ## Concrete instances used by witnesses and counterexamples -/

/-- A three-file directory in which exactly the middle file is malformed. -/
def filesC2 : List GFile :=
  [⟨"a.txt", true⟩, ⟨"b.txt", false⟩, ⟨"c.txt", true⟩]

/-- An inner archive whose extraction succeeds but whose deletion fails. -/
def archC8 : InnerArchive := ⟨"disc1.7z", [], true, false⟩

/-- An inner archive whose extraction fails but whose deletion succeeds. -/
def archC8w : InnerArchive := ⟨"disc2.7z", [], false, true⟩

/-- A pipeline run over an empty store with one inner archive, every stage
succeeding, and an empty guide directory. -/
def envC1 : InitService.PipelineEnv :=
  ⟨0, 0, [], true, true, [⟨"a.7z", [], true, true⟩], 0, 0, 0⟩

/-- A pipeline start over a store that already holds five guides. -/
def envC3 : InitService.PipelineEnv :=
  ⟨5, 2, [], true, true, [], 0, 5, 2⟩

/-- A two-row guides table in table order a then b. -/
def dbC4 : List GuideRow :=
  [⟨"a", "Alpha", "common text", none⟩, ⟨"b", "Beta", "common text", none⟩]

/-- The meta index entries of dbC4. -/
def metaIdxC4 : List MetaEntry := [⟨"a", "Alpha", ""⟩, ⟨"b", "Beta", ""⟩]

/-- A meta score oracle under which row b outranks row a (bm25 ranks are
ascending, more negative is better). -/
def mScoreC4 : MetaEntry → Option ℚ :=
  fun e => if e.guide_id = "a" then some (-1) else some (-2)

/-- A json_extract oracle for the tags field: the metadata text mjson holds
tags rpg. -/
def tagsOfC5 : String → Option String :=
  fun s => if s = "mjson" then some "rpg" else none

/-- The row inserted for the C5 counterexample: its metadata column is
NULL. -/
def oldRowC5 : GuideRow := ⟨"g1", "Title", "Body", none⟩

/-- A database holding only oldRowC5, indexes populated by the insert
triggers. -/
def dbC5 : TriggerDB := FTSSchema.insertGuide tagsOfC5 ⟨[], [], []⟩ oldRowC5

/-- The updated row: only the metadata column changes, from NULL to the JSON
text mjson whose tags are rpg. -/
def newRowC5 : GuideRow := ⟨"g1", "Title", "Body", some "mjson"⟩

/-! ## Theorems -/

theorem GuideImporter.runBatchTx_spec (batch : List GFile) (s : ImportStats) :
    GuideImporter.runBatchTx batch s =
      (⟨s.imported + batch.countP (·.parseOk), s.skipped,
        s.errors + batch.countP (fun f => !f.parseOk)⟩,
       (batch.filter (·.parseOk)).map (·.path)) := by
  induction batch generalizing s with
  | nil => simp [GuideImporter.runBatchTx]
  | cons f rest ih =>
    by_cases h : f.parseOk <;>
      simp [GuideImporter.runBatchTx, h, ih, List.countP_cons, List.filter_cons] <;>
      omega

theorem GuideImporter.mem_imported_paths (batch : List GFile)
    (hnd : (batch.map GFile.path).Nodup) (f : GFile) (hf : f ∈ batch) :
    f.path ∈ (batch.filter (·.parseOk)).map (·.path) ↔ f.parseOk = true := by
  constructor
  · intro hmem
    rcases List.mem_map.mp hmem with ⟨g, hg, hgp⟩
    rcases List.mem_filter.mp hg with ⟨hgb, hgok⟩
    have hfg : g = f := List.inj_on_of_nodup_map hnd hgb hf hgp
    rw [hfg] at hgok
    exact hgok
  · intro hp
    exact List.mem_map.mpr ⟨f, List.mem_filter.mpr ⟨hf, hp⟩, rfl⟩

theorem GuideImporter.runBatch_ok_spec (batch : List GFile) (s : ImportStats)
    (hnd : (batch.map GFile.path).Nodup) :
    GuideImporter.runBatch true batch s =
      (⟨s.imported + batch.countP (·.parseOk), s.skipped,
        s.errors + batch.countP (fun f => !f.parseOk)⟩,
       batch.filter (fun f => !f.parseOk)) := by
  have hpt : ∀ f ∈ batch,
      (!decide (f.path ∈ (batch.filter (·.parseOk)).map (·.path))) = !f.parseOk := by
    intro f hf
    by_cases hp : f.parseOk
    · have hmem := (GuideImporter.mem_imported_paths batch hnd f hf).mpr hp
      simp [hp, hmem]
    · have hmem : f.path ∉ (batch.filter (·.parseOk)).map (·.path) := fun hm =>
        hp ((GuideImporter.mem_imported_paths batch hnd f hf).mp hm)
      simp [hp, hmem]
  simp [GuideImporter.runBatch, GuideImporter.runBatchTx_spec]
  exact List.filter_congr hpt

theorem GuideImporter.importGo_ok_spec :
    ∀ (n : Nat) (files : List GFile), files.length ≤ n →
      (files.map GFile.path).Nodup → ∀ (bi : Nat) (s : ImportStats),
      GuideImporter.importGo (fun _ => true) files bi s =
        (⟨s.imported + files.countP (·.parseOk), s.skipped,
          s.errors + files.countP (fun f => !f.parseOk)⟩,
         files.filter (fun f => !f.parseOk)) := by
  intro n
  induction n with
  | zero =>
    intro files hlen _ bi s
    have : files = [] := List.eq_nil_of_length_eq_zero (Nat.le_zero.mp hlen)
    subst this
    simp [GuideImporter.importGo]
  | succ n ih =>
    intro files hlen hnd bi s
    match files with
    | [] => simp [GuideImporter.importGo]
    | f :: rest =>
      have hsplit : (f :: rest.take (GuideImporter.BATCH_SIZE - 1)) ++
          rest.drop (GuideImporter.BATCH_SIZE - 1) = f :: rest := by
        rw [List.cons_append, List.take_append_drop]
      have hbatchsub : (f :: rest.take (GuideImporter.BATCH_SIZE - 1)).Sublist (f :: rest) := by
        exact List.Sublist.cons₂ f (List.take_sublist _ _)
      have hdropsub : (rest.drop (GuideImporter.BATCH_SIZE - 1)).Sublist (f :: rest) := by
        exact (List.drop_sublist _ _).trans (List.sublist_cons_self f rest)
      have hndbatch : ((f :: rest.take (GuideImporter.BATCH_SIZE - 1)).map GFile.path).Nodup :=
        (hbatchsub.map GFile.path).nodup hnd
      have hnddrop : ((rest.drop (GuideImporter.BATCH_SIZE - 1)).map GFile.path).Nodup :=
        (hdropsub.map GFile.path).nodup hnd
      have hlendrop : (rest.drop (GuideImporter.BATCH_SIZE - 1)).length ≤ n := by
        simp only [List.length_drop]
        have := hlen
        simp only [List.length_cons] at this
        omega
      rw [GuideImporter.importGo]
      simp only [GuideImporter.runBatch_ok_spec _ _ hndbatch, ih _ hlendrop hnddrop]
      have hcount1 : (f :: rest).countP (·.parseOk) =
          (f :: rest.take (GuideImporter.BATCH_SIZE - 1)).countP (·.parseOk) +
          (rest.drop (GuideImporter.BATCH_SIZE - 1)).countP (·.parseOk) := by
        conv_lhs => rw [← hsplit]
        rw [List.countP_append]
      have hcount2 : (f :: rest).countP (fun f => !f.parseOk) =
          (f :: rest.take (GuideImporter.BATCH_SIZE - 1)).countP (fun f => !f.parseOk) +
          (rest.drop (GuideImporter.BATCH_SIZE - 1)).countP (fun f => !f.parseOk) := by
        conv_lhs => rw [← hsplit]
        rw [List.countP_append]
      have hfilt : (f :: rest).filter (fun f => !f.parseOk) =
          (f :: rest.take (GuideImporter.BATCH_SIZE - 1)).filter (fun f => !f.parseOk) ++
          (rest.drop (GuideImporter.BATCH_SIZE - 1)).filter (fun f => !f.parseOk) := by
        conv_lhs => rw [← hsplit]
        rw [List.filter_append]
      rw [hcount1, hcount2, hfilt]
      simp [Nat.add_assoc]

/-- C2: on a directory whose files have distinct paths and contain exactly one
malformed file, importFromDirectory (with every batch transaction committing)
reports length - 1 files imported and exactly 1 error, deletes every
successfully imported file from disk, and leaves exactly the malformed file
in place. -/
theorem C2_batch_isolation (files : List GFile)
    (hnd : (files.map GFile.path).Nodup)
    (h1 : files.countP (fun f => !f.parseOk) = 1) :
    GuideImporter.importFromDirectory false files (fun _ => true) false =
      ⟨.ok ⟨files.length - 1, 0, 1⟩, false, files.filter (fun f => !f.parseOk)⟩ ∧
    (files.filter (fun f => !f.parseOk)).length = 1 := by
  have hspec := GuideImporter.importGo_ok_spec files.length files le_rfl hnd 0 ⟨0, 0, 0⟩
  have hlen := List.length_eq_countP_add_countP (·.parseOk) files
  have hcompl : files.countP (fun a => decide ¬(a.parseOk = true)) =
      files.countP (fun f => !f.parseOk) := by
    simp
  rw [hcompl, h1] at hlen
  have himp : files.countP (·.parseOk) = files.length - 1 := by omega
  constructor
  · show (match GuideImporter.importGo (fun _ => true) files 0 ⟨0, 0, 0⟩ with
      | (s, rem) => (⟨.ok s, false, rem⟩ : GuideImporter.ImportCall)) = _
    rw [hspec]
    simp [himp, h1]
  · rw [← List.countP_eq_length_filter]
    exact h1

/-- Witness for C2 at the concrete three-file directory filesC2. -/
theorem C2_batch_isolation_witness :
    (filesC2.map GFile.path).Nodup ∧
    filesC2.countP (fun f => !f.parseOk) = 1 ∧
    GuideImporter.importFromDirectory false filesC2 (fun _ => true) false =
      ⟨.ok ⟨2, 0, 1⟩, false, [⟨"b.txt", false⟩]⟩ :=
  ⟨by decide, by decide,
    ((C2_batch_isolation filesC2 (by decide) (by decide)).1).trans rfl⟩

/-- C10: a call to importFromDirectory while the isImporting flag is set
throws the Import already in progress error, touching neither the flag of the
running import nor the files on disk; a call that starts (whether it ends
normally or by a thrown callback) always leaves the flag cleared, and the
next call on that cleared flag is never rejected by the guard. -/
theorem C10_import_reentrancy (files files2 : List GFile)
    (txOk txOk2 : Nat → Bool) (cb cb2 : Bool) :
    GuideImporter.importFromDirectory true files txOk cb =
      ⟨.error "Import already in progress", true, files⟩ ∧
    (GuideImporter.importFromDirectory false files txOk cb).isImporting = false ∧
    GuideImporter.guardRejected
      (GuideImporter.importFromDirectory
        ((GuideImporter.importFromDirectory false files txOk cb).isImporting)
        files2 txOk2 cb2) = false := by
  refine ⟨rfl, ?_, ?_⟩
  · by_cases hcb : cb <;> simp [GuideImporter.importFromDirectory, hcb]
  · by_cases hcb : cb <;> by_cases hcb2 : cb2 <;>
      simp [GuideImporter.importFromDirectory, GuideImporter.guardRejected, hcb, hcb2]

/-- C9: for every numeric percentage p, updateCompletionPercentage stores
clamp(p, 0, 100) and sets status not_started exactly when the clamped value is
0 (that is, when p is at most 0), completed exactly when it is 100 (p at least
100), and in_progress for every p strictly between 0 and 100. -/
theorem C9_completion_clamp_status (p : ℚ) :
    (GameModel.updateCompletionPercentage p).1 = max 0 (min 100 p) ∧
    (GameModel.updateCompletionPercentage p).2 =
      (if p ≤ 0 then GameStatus.not_started
       else if 100 ≤ p then GameStatus.completed
       else GameStatus.in_progress) := by
  constructor
  · rfl
  · show (if max 0 (min 100 p) = 0 then GameStatus.not_started
        else if max 0 (min 100 p) = 100 then GameStatus.completed
        else GameStatus.in_progress) = _
    rcases le_or_lt p 0 with h0 | h0
    · have hc : max 0 (min 100 p) = 0 := by
        have : min 100 p ≤ 0 := le_trans (min_le_right _ _) h0
        simp [max_eq_left this]
      simp [hc, h0]
    · rcases le_or_lt 100 p with h100 | h100
      · have hc : max 0 (min 100 p) = 100 := by
          have hm : min 100 p = 100 := min_eq_left h100
          rw [hm]
          norm_num
        rw [hc]
        simp [not_le.mpr h0, h100]
      · have hm : min 100 p = p := min_eq_right (le_of_lt h100)
        have hc : max 0 (min 100 p) = p := by
          rw [hm]
          exact max_eq_right (le_of_lt h0)
        rw [hc]
        simp [not_le.mpr h0, not_le.mpr h100, ne_of_gt h0, ne_of_lt h100]

/-- C7: if the download stream fails mid-transfer (a stream or write error
instead of a clean finish), downloadArchive removes the partial file, leaving
nothing at the destination path, and rejects; the promise resolves only on a
finished stream, and then the file at the destination is the complete
download, never a truncated one. -/
theorem C7_download_failure_cleanup (chunks : List Nat) (outcome : StreamOutcome) :
    ((ArchiveDownloadService.downloadArchive chunks outcome).result.isOk = true ↔
      outcome = .finished) ∧
    (ArchiveDownloadService.downloadArchive chunks outcome).fileAtDest =
      (if outcome = .finished then some (chunks.foldl (· + ·) 0) else none) := by
  cases outcome <;> simp [ArchiveDownloadService.downloadArchive, Except.isOk, Except.toBool]

theorem ArchiveExtractor.stage2_foldl_spec :
    ∀ (archives : List InnerArchive) (acc : ArchiveExtractor.Stage2Acc),
      ((archives.foldl ArchiveExtractor.stage2Step acc).recordedErrors =
        acc.recordedErrors ++
          (archives.filter (fun a => !a.extractOk)).map
            (fun a => "Failed to extract " ++ a.name)) ∧
      ((archives.foldl ArchiveExtractor.stage2Step acc).remaining =
        acc.remaining ++ (archives.filter (fun a => !a.unlinkOk)).map (·.name)) ∧
      ((archives.foldl ArchiveExtractor.stage2Step acc).attempted =
        acc.attempted ++ archives.map (·.name))
  | [], acc => by simp
  | a :: rest, acc => by
    have ih := ArchiveExtractor.stage2_foldl_spec rest (ArchiveExtractor.stage2Step acc a)
    simp only [List.foldl_cons]
    refine ⟨?_, ?_, ?_⟩
    · rw [ih.1]
      by_cases h : a.extractOk <;>
        simp [ArchiveExtractor.stage2Step, h, List.filter_cons]
    · rw [ih.2.1]
      by_cases h : a.extractOk <;> by_cases h2 : a.unlinkOk <;>
        simp [ArchiveExtractor.stage2Step, h, h2, List.filter_cons]
    · rw [ih.2.2]
      by_cases h : a.extractOk <;>
        simp [ArchiveExtractor.stage2Step, h]

/-- C6: a stage-1 failure (the outer container cannot be opened or read)
rejects the whole extraction with the error status before any inner archive
is attempted, whereas on a stage-1 success the extraction always resolves
with status complete, every inner archive is attempted in order, and each
inner-archive failure only adds one recorded non-fatal error. -/
theorem C6_stage1_fatal_inner_nonfatal (archives : List InnerArchive) :
    ((ArchiveExtractor.extractArchive false archives).ok = false ∧
     (ArchiveExtractor.extractArchive false archives).finalStatus = .error ∧
     (ArchiveExtractor.extractArchive false archives).attempted = []) ∧
    ((ArchiveExtractor.extractArchive true archives).ok = true ∧
     (ArchiveExtractor.extractArchive true archives).finalStatus = .complete ∧
     (ArchiveExtractor.extractArchive true archives).attempted = archives.map (·.name) ∧
     (ArchiveExtractor.extractArchive true archives).recordedErrors.length =
       (archives.filter (fun a => !a.extractOk)).length) := by
  have hs := ArchiveExtractor.stage2_foldl_spec archives (ArchiveExtractor.stage2Start archives)
  refine ⟨⟨rfl, rfl, rfl⟩, rfl, rfl, ?_, ?_⟩
  · show (archives.foldl ArchiveExtractor.stage2Step (ArchiveExtractor.stage2Start archives)).attempted = _
    rw [hs.2.2]
    simp [ArchiveExtractor.stage2Start]
  · show (archives.foldl ArchiveExtractor.stage2Step (ArchiveExtractor.stage2Start archives)).recordedErrors.length = _
    rw [hs.1]
    simp [ArchiveExtractor.stage2Start]

/-- C8 counterexample: an inner archive that is processed by stage 2 and
extracts fine, but whose fs.unlinkSync call fails; after the run its file is
still on disk, so the claim that the file no longer exists after every
stage-2 extraction is false. -/
theorem C8_counterexample :
    archC8 ∈ (ArchiveExtractor.extractArchive true [archC8]).attempted.map
      (fun n => (⟨n, [], true, false⟩ : InnerArchive)) ∧
    archC8.extractOk = true ∧
    (ArchiveExtractor.extractArchive true [archC8]).remaining = ["disc1.7z"] := by decide

/-- C8 amended: after stage 2 has processed an inner archive, the deletion of
its file has been attempted regardless of whether its extraction succeeded,
and whenever those deletions succeed no inner-archive file remains on disk;
a failed deletion is non-fatal and leaves the file behind. -/
theorem C8_amended_space_reclamation (archives : List InnerArchive)
    (hunlink : ∀ a ∈ archives, a.unlinkOk = true) :
    (ArchiveExtractor.extractArchive true archives).remaining = [] ∧
    (ArchiveExtractor.extractArchive true archives).attempted = archives.map (·.name) := by
  have hs := ArchiveExtractor.stage2_foldl_spec archives (ArchiveExtractor.stage2Start archives)
  constructor
  · show (archives.foldl ArchiveExtractor.stage2Step (ArchiveExtractor.stage2Start archives)).remaining = _
    rw [hs.2.1]
    have hfil : archives.filter (fun a => !a.unlinkOk) = [] := by
      rw [List.filter_eq_nil_iff]
      intro a ha
      simp [hunlink a ha]
    simp [ArchiveExtractor.stage2Start, hfil]
  · show (archives.foldl ArchiveExtractor.stage2Step (ArchiveExtractor.stage2Start archives)).attempted = _
    rw [hs.2.2]
    simp [ArchiveExtractor.stage2Start]

/-- Witness for the amended C8: a failing extraction with a succeeding
deletion still ends with no archive file on disk. -/
theorem C8_amended_witness :
    ([archC8w].all (fun a => a.unlinkOk)) = true ∧
    archC8w.extractOk = false ∧
    (ArchiveExtractor.extractArchive true [archC8w]).remaining = [] :=
  ⟨by decide, by decide,
    (C8_amended_space_reclamation [archC8w] (by decide)).1⟩

/-- C1 fails on the code: in the concrete single-archive run envC1, the
snapshot published when the extractor announces the archive count (with
currentArchive still 0) computes currentProgress as (0 - 1) / 1 and publishes
progress 30 + floor(-30) = 0 right after a snapshot with progress 30, so the
published progress of a successful run is not non-decreasing. -/
theorem C1_progress_regression :
    InitService.progressMonotone (InitService.initTrace envC1) = false ∧
    (InitService.initTrace envC1)[2]? = some ⟨.extracting, 30, 0, 0⟩ ∧
    (InitService.initTrace envC1)[3]? = some ⟨.extracting, 0, 0, 0⟩ := by decide

/-- C3: when the store already holds at least one guide, initialize()
publishes exactly one snapshot, complete with progress 100 and the store
counts, and invokes none of the download, extract or import operations. -/
theorem C3_idempotent_restart (env : InitService.PipelineEnv)
    (h : 0 < env.guideCount) :
    InitService.initTrace env = [⟨.complete, 100, env.guideCount, env.gameCount⟩] ∧
    InitService.initOps env = [] := by
  constructor <;> simp [InitService.initTrace, InitService.initOps, h]

/-- Witness for C3 at the concrete environment envC3. -/
theorem C3_idempotent_restart_witness :
    0 < envC3.guideCount ∧
    InitService.initTrace envC3 = [⟨.complete, 100, 5, 2⟩] ∧
    InitService.initOps envC3 = [] :=
  ⟨by decide,
    ((C3_idempotent_restart envC3 (by decide)).1).trans rfl,
    (C3_idempotent_restart envC3 (by decide)).2⟩

theorem GuideModel.mem_fetchGuides (db : List GuideRow) (ids : List String)
    (g : GuideRow) (hg : g ∈ GuideModel.fetchGuides db ids) :
    g ∈ db ∧ g.id ∈ ids := by
  unfold GuideModel.fetchGuides at hg
  by_cases h : ids.isEmpty = true
  · simp [h] at hg
  · simp only [h, if_false, Bool.false_eq_true] at hg
    rcases List.mem_filter.mp hg with ⟨hgdb, hc⟩
    refine ⟨hgdb, ?_⟩
    simpa [List.contains, List.elem_iff] using hc

theorem GuideModel.fetchGuides_sublist (db : List GuideRow) (ids : List String) :
    (GuideModel.fetchGuides db ids).Sublist db := by
  unfold GuideModel.fetchGuides
  by_cases h : ids.isEmpty = true <;>
    simp [h, List.filter_sublist, List.nil_sublist]

theorem GuideModel.length_fetchGuides_le (db : List GuideRow) (ids : List String)
    (hdb : (db.map GuideRow.id).Nodup) :
    (GuideModel.fetchGuides db ids).length ≤ ids.length := by
  unfold GuideModel.fetchGuides
  by_cases h : ids.isEmpty = true
  · simp [h]
  · simp only [h, if_false, Bool.false_eq_true]
    have hsub : ((db.filter (fun g => ids.contains g.id)).map GuideRow.id).Sublist
        (db.map GuideRow.id) :=
      (List.filter_sublist db).map GuideRow.id
    have hnd2 : ((db.filter (fun g => ids.contains g.id)).map GuideRow.id).Nodup :=
      List.Nodup.sublist hsub hdb
    have hsubset : ∀ x ∈ (db.filter (fun g => ids.contains g.id)).map GuideRow.id,
        x ∈ ids := by
      intro x hx
      rcases List.mem_map.mp hx with ⟨g, hgf, rfl⟩
      have hc := (List.mem_filter.mp hgf).2
      simpa [List.contains, List.elem_iff] using hc
    calc (db.filter (fun g => ids.contains g.id)).length
        = ((db.filter (fun g => ids.contains g.id)).map GuideRow.id).length := by
          rw [List.length_map]
      _ = ((db.filter (fun g => ids.contains g.id)).map GuideRow.id).toFinset.card :=
          (List.toFinset_card_of_nodup hnd2).symm
      _ ≤ ids.toFinset.card :=
          Finset.card_le_card (fun x hx =>
            List.mem_toFinset.mpr (hsubset x (List.mem_toFinset.mp hx)))
      _ ≤ ids.length := List.toFinset_card_le ids

theorem GuideModel.length_queryIndex_le {α : Type} (idx : List α)
    (gid : α → String) (score : α → Option ℚ) (limit : Nat) :
    (GuideModel.queryIndex idx gid score limit).length ≤ limit := by
  unfold GuideModel.queryIndex
  rw [List.length_take]
  exact min_le_left _ _

/-- C4 counterexample: under a meta score oracle that ranks row b before
row a, the matched id list in relevance order is b then a, but the guide list
returned by search comes back from the unordered IN fetch in table order a
then b, so the returned list is not ordered by the native relevance ranking
of the meta index. -/
theorem C4_counterexample :
    (GuideModel.queryIndex metaIdxC4 (·.guide_id) mScoreC4 50).map FTSRow.guide_id
      = ["b", "a"] ∧
    (GuideModel.search dbC4 metaIdxC4 [] mScoreC4 (fun _ => none) 50).guides.map
      GuideRow.id = ["a", "b"] := by decide

/-- C4 amended: search returns a metadata-match list and a content-only list
in which no id of the former appears, each holding at most limit guides; the
matched id-and-rank lists of each index are ordered by that index rank and
truncated to the limit, but the returned guide lists themselves follow the
guides-table row order (they are sublists of the table), because the IN fetch
carries no ORDER BY. -/
theorem C4_search_amended (db : List GuideRow) (metaIdx : List MetaEntry)
    (contentIdx : List ContentEntry) (mScore : MetaEntry → Option ℚ)
    (cScore : ContentEntry → Option ℚ) (limit : Nat)
    (hdb : (db.map GuideRow.id).Nodup) :
    (∀ g ∈ (GuideModel.search db metaIdx contentIdx mScore cScore limit).content,
      ∀ g2 ∈ (GuideModel.search db metaIdx contentIdx mScore cScore limit).guides,
        g.id ≠ g2.id) ∧
    (GuideModel.search db metaIdx contentIdx mScore cScore limit).guides.length ≤ limit ∧
    (GuideModel.search db metaIdx contentIdx mScore cScore limit).content.length ≤ limit ∧
    List.Pairwise (fun a b : FTSRow => a.rank ≤ b.rank)
      (GuideModel.queryIndex metaIdx (·.guide_id) mScore limit) ∧
    List.Pairwise (fun a b : FTSRow => a.rank ≤ b.rank)
      (GuideModel.queryIndex contentIdx (·.guide_id) cScore limit) ∧
    (GuideModel.search db metaIdx contentIdx mScore cScore limit).guides.Sublist db ∧
    (GuideModel.search db metaIdx contentIdx mScore cScore limit).content.Sublist db := by
  have hguides : (GuideModel.search db metaIdx contentIdx mScore cScore limit).guides =
      GuideModel.fetchGuides db
        ((GuideModel.queryIndex metaIdx (·.guide_id) mScore limit).map FTSRow.guide_id) := rfl
  have hcontent : (GuideModel.search db metaIdx contentIdx mScore cScore limit).content =
      GuideModel.fetchGuides db
        (((GuideModel.queryIndex contentIdx (·.guide_id) cScore limit).map FTSRow.guide_id).filter
          (fun i =>
            !((GuideModel.queryIndex metaIdx (·.guide_id) mScore limit).map
              FTSRow.guide_id).contains i)) := rfl
  refine ⟨?_, ?_, ?_, ?_, ?_, ?_, ?_⟩
  · intro g hg g2 hg2 heq
    rw [hcontent] at hg
    rw [hguides] at hg2
    have h1 := (GuideModel.mem_fetchGuides _ _ _ hg).2
    have h2 := (GuideModel.mem_fetchGuides _ _ _ hg2).2
    rcases List.mem_filter.mp h1 with ⟨_, hnot⟩
    rw [heq] at hnot
    simp [List.contains, List.elem_iff, h2] at hnot
  · rw [hguides]
    refine le_trans (GuideModel.length_fetchGuides_le db _ hdb) ?_
    rw [List.length_map]
    exact GuideModel.length_queryIndex_le _ _ _ _
  · rw [hcontent]
    refine le_trans (GuideModel.length_fetchGuides_le db _ hdb) ?_
    refine le_trans (List.length_filter_le _ _) ?_
    rw [List.length_map]
    exact GuideModel.length_queryIndex_le _ _ _ _
  · exact List.Pairwise.sublist (List.take_sublist _ _)
      (List.sorted_insertionSort GuideModel.byRank _)
  · exact List.Pairwise.sublist (List.take_sublist _ _)
      (List.sorted_insertionSort GuideModel.byRank _)
  · rw [hguides]
    exact GuideModel.fetchGuides_sublist db _
  · rw [hcontent]
    exact GuideModel.fetchGuides_sublist db _

/-- Witness for the amended C4 at the concrete two-row table. -/
theorem C4_search_amended_witness :
    (dbC4.map GuideRow.id).Nodup ∧
    (GuideModel.search dbC4 metaIdxC4 [] mScoreC4 (fun _ => none) 50).guides.length ≤ 50 ∧
    (GuideModel.search dbC4 metaIdxC4 [] mScoreC4 (fun _ => none) 50).guides.Sublist dbC4 :=
  ⟨by decide,
   (C4_search_amended dbC4 metaIdxC4 [] mScoreC4 (fun _ => none) 50 (by decide)).2.1,
   (C4_search_amended dbC4 metaIdxC4 [] mScoreC4 (fun _ => none) 50 (by decide)).2.2.2.2.2.1⟩

/-- C5 counterexample: a stored guide with NULL metadata is updated so that
only its metadata changes (title and content identical), and the new metadata
carries tags rpg; the claim requires the meta-index entry to be modified, but
the WHEN clause old.metadata != new.metadata evaluates to NULL when
old.metadata is NULL, the trigger does not fire, and the meta-index entry
keeps its empty tags. -/
theorem C5_counterexample :
    newRowC5.id = oldRowC5.id ∧
    newRowC5.title = oldRowC5.title ∧
    newRowC5.content = oldRowC5.content ∧
    newRowC5.metadata ≠ oldRowC5.metadata ∧
    tagsString tagsOfC5 newRowC5.metadata = "rpg" ∧
    dbC5.guides_fts_meta = [⟨"g1", "Title", ""⟩] ∧
    (FTSSchema.updateGuide tagsOfC5 dbC5 newRowC5).guides_fts_meta
      = [⟨"g1", "Title", ""⟩] := by decide

/-- C5 amended: an update that changes the title, or that changes the
metadata between two non-NULL values, rewrites the meta-index entry of the
guide from the new title and tags and (if the content is unchanged) leaves
the content-index entry untouched; an update whose title is unchanged and
whose metadata comparison is not definitely true under SQL null semantics
(in particular a change from or to NULL metadata) leaves the meta index
unchanged; an update that changes the content rewrites the content-index
entry; an insert creates one entry in each index and a delete of a stored
guide removes the entries of that guide from both. -/
theorem C5_amended_split_index_maintenance (tagsOf : String → Option String) :
    (∀ (db : TriggerDB) (old new : GuideRow),
      db.guides.find? (fun g => g.id == new.id) = some old →
      old.content = new.content →
      (FTSSchema.updateGuide tagsOf db new).guides_fts_content
        = db.guides_fts_content) ∧
    (∀ (db : TriggerDB) (old new : GuideRow),
      db.guides.find? (fun g => g.id == new.id) = some old →
      (old.title ≠ new.title ∨ sqlTextNe old.metadata new.metadata = true) →
      (FTSSchema.updateGuide tagsOf db new).guides_fts_meta
        = db.guides_fts_meta.map (fun e =>
            if e.guide_id == new.id then
              ⟨new.id, new.title, tagsString tagsOf new.metadata⟩
            else e)) ∧
    (∀ (db : TriggerDB) (old new : GuideRow),
      db.guides.find? (fun g => g.id == new.id) = some old →
      old.title = new.title →
      sqlTextNe old.metadata new.metadata = false →
      (FTSSchema.updateGuide tagsOf db new).guides_fts_meta
        = db.guides_fts_meta) ∧
    (∀ (db : TriggerDB) (old new : GuideRow),
      db.guides.find? (fun g => g.id == new.id) = some old →
      old.content ≠ new.content →
      (FTSSchema.updateGuide tagsOf db new).guides_fts_content
        = db.guides_fts_content.map (fun e =>
            if e.guide_id == new.id then ⟨new.id, new.content⟩ else e)) ∧
    (∀ (db : TriggerDB) (g : GuideRow),
      (FTSSchema.insertGuide tagsOf db g).guides_fts_meta
        = db.guides_fts_meta ++ [⟨g.id, g.title, tagsString tagsOf g.metadata⟩] ∧
      (FTSSchema.insertGuide tagsOf db g).guides_fts_content
        = db.guides_fts_content ++ [⟨g.id, g.content⟩]) ∧
    (∀ (db : TriggerDB) (gid : String),
      db.guides.any (fun g => g.id == gid) = true →
      (FTSSchema.deleteGuide db gid).guides_fts_meta
        = db.guides_fts_meta.filter (fun e => e.guide_id != gid) ∧
      (FTSSchema.deleteGuide db gid).guides_fts_content
        = db.guides_fts_content.filter (fun e => e.guide_id != gid)) := by
  refine ⟨?_, ?_, ?_, ?_, ?_, ?_⟩
  · intro db old new hfind hc
    simp [FTSSchema.updateGuide, hfind, hc]
  · intro db old new hfind hcond
    have hb : ((old.title != new.title) || sqlTextNe old.metadata new.metadata) = true := by
      rcases hcond with ht | hm
      · simp [bne_iff_ne, ht]
      · simp [hm]
    simp [FTSSchema.updateGuide, hfind, hb]
  · intro db old new hfind ht hm
    have hb : ((old.title != new.title) || sqlTextNe old.metadata new.metadata) = false := by
      simp [ht, hm]
    simp [FTSSchema.updateGuide, hfind, hb]
  · intro db old new hfind hc
    have hb : (old.content != new.content) = true := by simp [bne_iff_ne, hc]
    simp [FTSSchema.updateGuide, hfind, hb]
  · intro db g
    exact ⟨rfl, rfl⟩
  · intro db gid hany
    constructor <;> simp [FTSSchema.deleteGuide, hany]

/-- Witness for the amended C5: a non-NULL to non-NULL metadata-only update
rewrites the meta entry and leaves the content entry; a content-only update
does the reverse; plus the insert and delete clauses, all at concrete
rows. -/
theorem C5_amended_witness :
    (FTSSchema.updateGuide tagsOfC5
        (FTSSchema.insertGuide tagsOfC5 ⟨[], [], []⟩ ⟨"g2", "T", "C", some "x"⟩)
        ⟨"g2", "T", "C", some "mjson"⟩).guides_fts_meta
      = [⟨"g2", "T", "rpg"⟩] ∧
    (FTSSchema.updateGuide tagsOfC5
        (FTSSchema.insertGuide tagsOfC5 ⟨[], [], []⟩ ⟨"g2", "T", "C", some "x"⟩)
        ⟨"g2", "T", "C", some "mjson"⟩).guides_fts_content
      = [⟨"g2", "C"⟩] ∧
    (FTSSchema.updateGuide tagsOfC5
        (FTSSchema.insertGuide tagsOfC5 ⟨[], [], []⟩ ⟨"g2", "T", "C", some "x"⟩)
        ⟨"g2", "T", "D", some "x"⟩).guides_fts_meta
      = [⟨"g2", "T", ""⟩] ∧
    (FTSSchema.updateGuide tagsOfC5
        (FTSSchema.insertGuide tagsOfC5 ⟨[], [], []⟩ ⟨"g2", "T", "C", some "x"⟩)
        ⟨"g2", "T", "D", some "x"⟩).guides_fts_content
      = [⟨"g2", "D"⟩] ∧
    (FTSSchema.deleteGuide
        (FTSSchema.insertGuide tagsOfC5 ⟨[], [], []⟩ ⟨"g2", "T", "C", some "x"⟩)
        "g2").guides_fts_meta = [] := by
  have h := C5_amended_split_index_maintenance tagsOfC5
  refine ⟨?_, ?_, ?_, ?_, ?_⟩
  · exact (h.2.1 _ ⟨"g2", "T", "C", some "x"⟩ ⟨"g2", "T", "C", some "mjson"⟩
      (by decide) (Or.inr (by decide))).trans (by decide)
  · exact (h.1 _ ⟨"g2", "T", "C", some "x"⟩ ⟨"g2", "T", "C", some "mjson"⟩
      (by decide) (by decide)).trans (by decide)
  · exact (h.2.2.1 _ ⟨"g2", "T", "C", some "x"⟩ ⟨"g2", "T", "D", some "x"⟩
      (by decide) (by decide) (by decide)).trans (by decide)
  · exact (h.2.2.2.1 _ ⟨"g2", "T", "C", some "x"⟩ ⟨"g2", "T", "D", some "x"⟩
      (by decide) (by decide)).trans (by decide)
  · exact ((h.2.2.2.2.2 _ "g2" (by decide)).1).trans (by decide)
